import Mathlib

/-!
Verification of the Station Synthesis & Result Merge Pipeline.

Shallow embedding of `app/core/geometry.py`, `app/core/merge.py` and
`app/core/job_status.py`.

Modelling choices:
* Python floats are modelled by exact rationals (`ℚ`) for all control-flow
  and data-shape properties; the Euclidean distance accumulation of the
  Distance Parameterizer is modelled over `ℝ` (`Real.sqrt`), matching
  `math.hypot`.
* The `while` loop of `generate_target_stations` is modelled with an explicit
  fuel parameter; exhausting every fuel bound models non-termination of the
  Python loop.  Out-of-range list indexing (Python `IndexError`) and use of an
  unbound loop variable (Python `NameError`) are modelled by explicit error
  results.
* `merge_job_results` is modelled as a pure function from the three loaded
  CSV row lists to either a fatal error (`Except.error`, the Python
  `ValueError` raised before `final.csv` is written) or the list of rows
  written to `final.csv` (`Except.ok`).  Python's stable `list.sort` is
  modelled by `List.mergeSort`, which is stable.
* `job_status` is modelled as a pure function of a snapshot of artifact
  presence (file existence flags plus the async S3 listing flags).
-/

/-- A measured point `{x, y, value}` with cumulative distance `d_along`
attached, as produced by `compute_cumulative_distance` (rational model). -/
structure ParamPoint where
  x : ℚ
  y : ℚ
  value : ℚ
  d_along : ℚ
deriving DecidableEq, Repr, Inhabited

/-- A generated target station `{x, y, d_along}` as produced by
`generate_target_stations`. -/
structure Target where
  x : ℚ
  y : ℚ
  d_along : ℚ
deriving DecidableEq, Repr, Inhabited

/-- A canonical station record as produced by `classify_stations`:
`{station_index, x, y, d_along, measured, value}`.  `measured` is the
Python int flag (`1` or `0`); `value` is `None` for unmatched stations. -/
structure CanonStation where
  station_index : ℕ
  x : ℚ
  y : ℚ
  d_along : ℚ
  measured : ℕ
  value : Option ℚ
deriving DecidableEq, Repr, Inhabited

/-- A row built by `split_train_predict`:
`{station_index, x, y, d_along, value}`. -/
structure SplitRow where
  station_index : ℕ
  x : ℚ
  y : ℚ
  d_along : ℚ
  value : Option ℚ
deriving DecidableEq, Repr, Inhabited

/-- `TOLERANCE = 1e-3` from `geometry.py` (exact rational model). -/
def TOLERANCE : ℚ := 1 / 1000

/-- Embedding of `interpolate_point(p1, p2, target_d)`: linear interpolation
between `p1` and `p2` at distance `target_d`.  The source guards only the
exact-equality case `d2 == d1`; otherwise it divides by `d2 - d1`. -/
def interpolate_point (p1 p2 : ParamPoint) (target_d : ℚ) : ℚ × ℚ :=
  let d1 := p1.d_along
  let d2 := p2.d_along
  if d2 = d1 then (p1.x, p1.y)
  else
    let t := (target_d - d1) / (d2 - d1)
    (p1.x + t * (p2.x - p1.x), p1.y + t * (p2.y - p1.y))

/-- Helper for `classify_stations`: the inner `for m in measured_points`
loop with `break` on the first match is Python's first-match scan,
i.e. `List.find?` with the tolerance test. -/
def classifyGo (measured_points : List ParamPoint) : ℕ → List Target → List CanonStation
  | _, [] => []
  | idx, s :: rest =>
    match measured_points.find? (fun m => |m.d_along - s.d_along| ≤ TOLERANCE) with
    | some m =>
        ⟨idx, s.x, s.y, s.d_along, 1, some m.value⟩ :: classifyGo measured_points (idx + 1) rest
    | none =>
        ⟨idx, s.x, s.y, s.d_along, 0, none⟩ :: classifyGo measured_points (idx + 1) rest

/-- Embedding of `classify_stations(stations, measured_points)`: assigns a
sequential `station_index` via `enumerate` and labels each station measured
iff some measured point's `d_along` is within `TOLERANCE` (first match wins). -/
def classify_stations (stations : List Target) (measured_points : List ParamPoint) :
    List CanonStation :=
  classifyGo measured_points 0 stations

/-- Embedding of `split_train_predict(canonical_stations)` exactly as written
in the source: the `if s["measured"] == 1` block sits at the indentation level
of the `for` loop, hence OUTSIDE it.  The loop only rebinds `row` (and the
loop variable `s`); after the loop a single append runs on the LAST station's
row.  On an empty input the trailing `if` reads the unbound name `s`
(Python `NameError`), modelled by `none`. -/
def split_train_predict (canonical_stations : List CanonStation) :
    Option (List SplitRow × List SplitRow) :=
  match canonical_stations.getLast? with
  | none => none
  | some s =>
    let row : SplitRow := ⟨s.station_index, s.x, s.y, s.d_along, s.value⟩
    if s.measured = 1 then some ([row], []) else some ([], [row])

/-- A row of `train.csv` as loaded by `merge_job_results`:
`{x, y, d_along, value}`. -/
structure TrainRow where
  x : ℚ
  y : ℚ
  d_along : ℚ
  value : ℚ
deriving DecidableEq, Repr, Inhabited

/-- A row of `predict.csv` as loaded by `merge_job_results`:
`{x, y, d_along}`. -/
structure PredictRow where
  x : ℚ
  y : ℚ
  d_along : ℚ
deriving DecidableEq, Repr, Inhabited

/-- A row of the merged `final.csv`:
`{x, y, d_along, value, source}`. -/
structure FinalRow where
  x : ℚ
  y : ℚ
  d_along : ℚ
  value : ℚ
  source : String
deriving DecidableEq, Repr, Inhabited

/-- Embedding of the data transformation of `merge_job_results(job_id)`,
taking the three loaded CSV contents (`train.csv`, `predict.csv`,
`predictions.csv`) as lists.  A row-count mismatch raises `ValueError`
before anything is written (`Except.error`); otherwise the sorted merged
rows written to `final.csv` are returned (`Except.ok`).  Python's stable
`merged_rows.sort(key=lambda r: r["d_along"])` is `List.mergeSort` on the
`d_along` key. -/
def merge_job_results (train : List TrainRow) (predict_rows : List PredictRow)
    (predictions : List ℚ) : Except String (List FinalRow) :=
  let measuredRows : List FinalRow :=
    train.map (fun r => ⟨r.x, r.y, r.d_along, r.value, "measured"⟩)
  if predict_rows.length ≠ predictions.length then
    .error "predict.csv and predictions.csv row count mismatch"
  else
    let predictedRows : List FinalRow :=
      List.zipWith (fun g p => ⟨g.x, g.y, g.d_along, p, "predicted"⟩) predict_rows predictions
    .ok ((measuredRows ++ predictedRows).mergeSort (fun a b => a.d_along ≤ b.d_along))

/-- A snapshot of the job workspace observed by `job_status`: existence of
the job directory and of each artifact file, plus whether the S3 async
listing contains the `<inference_id>.error` / `<inference_id>.out` key. -/
structure JobState where
  dirExists : Bool
  errorJson : Bool
  finalCsv : Bool
  predictionsCsv : Bool
  inferenceJson : Bool
  asyncErrorKey : Bool
  asyncOutKey : Bool
  trainCsv : Bool
deriving DecidableEq, Repr, Inhabited

/-- Embedding of `job_status(job_id)`: the top-to-bottom decision table of
`job_status.py` as a pure function of the artifact snapshot. -/
def job_status (st : JobState) : String :=
  if !st.dirExists then "not_found"
  else if st.errorJson then "failed"
  else if st.finalCsv then "complete"
  else if st.predictionsCsv then "merging"
  else if st.inferenceJson then
    if st.asyncErrorKey then "failed"
    else if st.asyncOutKey then "completed_inference"
    else "inferencing"
  else if st.trainCsv then "processing"
  else "accepted"

/-- Result of the `generate_target_stations` loop: a normal return, a Python
`IndexError` (indexing past the end of the point list), or exhaustion of
every fuel bound (the Python loop never terminates). -/
inductive GtsResult where
  | ok (targets : List Target)
  | indexError
  | outOfFuel
deriving DecidableEq, Repr

/-- One bounded run of the inner cursor-advance `while` loop of
`generate_target_stations`: with `k` advances still permitted by the bound
`i < len(points) - 2`, advance while the next point's `d_along` is below
`current_d`. -/
def advanceAux (pts : List ParamPoint) (current_d : ℚ) : ℕ → ℕ → ℕ
  | 0, i => i
  | k + 1, i =>
    if (pts.getD (i + 1) default).d_along < current_d then
      advanceAux pts current_d k (i + 1)
    else i

/-- The inner `while i < len(points) - 2 and points[i+1].d_along < current_d`
loop: from cursor `i` it can advance at most `len - 2 - i` times (natural
subtraction, matching the Python bound for every list length). -/
def advanceCursor (pts : List ParamPoint) (current_d : ℚ) (i : ℕ) : ℕ :=
  advanceAux pts current_d (pts.length - 2 - i) i

/-- The outer `while current_d <= total_length` loop of
`generate_target_stations`, with explicit fuel.  Each iteration advances the
cursor, reads `p1 = points[i]` and `p2 = points[i+1]` (an out-of-range read
is Python's `IndexError`), appends the interpolated target, and steps
`current_d` by `spacing`. -/
def gtsLoop (pts : List ParamPoint) (spacing total_length : ℚ) :
    ℕ → ℚ → ℕ → List Target → GtsResult
  | 0, _, _, _ => .outOfFuel
  | fuel + 1, current_d, i, acc =>
    if current_d ≤ total_length then
      let j := advanceCursor pts current_d i
      match pts.get? j, pts.get? (j + 1) with
      | some p1, some p2 =>
        let xy := interpolate_point p1 p2 current_d
        gtsLoop pts spacing total_length fuel (current_d + spacing) j
          (acc ++ [⟨xy.1, xy.2, current_d⟩])
      | _, _ => .indexError
    else .ok acc

/-- Embedding of `generate_target_stations(points_with_distance, spacing)`:
empty input returns `[]`; otherwise `total_length` is the last point's
`d_along` and the fuelled loop runs from `current_d = 0`, `i = 0`. -/
def generate_target_stations (points_with_distance : List ParamPoint) (spacing : ℚ)
    (fuel : ℕ) : GtsResult :=
  match points_with_distance.getLast? with
  | none => .ok []
  | some last =>
      gtsLoop points_with_distance spacing last.d_along fuel 0 0 []

/-- A raw measured point `{x, y, value}` over `ℝ`, the input of
`compute_cumulative_distance`. -/
structure MeasuredPoint where
  x : ℝ
  y : ℝ
  value : ℝ

/-- A parameterized point over `ℝ`: a measured point with the cumulative
Euclidean arclength `d_along` attached. -/
structure ParameterizedPoint where
  x : ℝ
  y : ℝ
  value : ℝ
  d_along : ℝ

/-- Default parameterized point, used with `List.getD`. -/
instance : Inhabited ParameterizedPoint := ⟨⟨0, 0, 0, 0⟩⟩

/-- Default measured point, used with `List.getD`. -/
instance : Inhabited MeasuredPoint := ⟨⟨0, 0, 0⟩⟩

/-- Euclidean distance `math.hypot(p.x - prev.x, p.y - prev.y)` between two
measured points. -/
noncomputable def euclid (prev p : MeasuredPoint) : ℝ :=
  Real.sqrt ((p.x - prev.x) ^ 2 + (p.y - prev.y) ^ 2)

/-- The `for p in points[1:]` loop of `compute_cumulative_distance`: `prev`
is the previous point and `d` the accumulated distance so far. -/
noncomputable def ccdAux (prev : MeasuredPoint) (d : ℝ) :
    List MeasuredPoint → List ParameterizedPoint
  | [] => []
  | p :: rest =>
      let dNew := d + euclid prev p
      ⟨p.x, p.y, p.value, dNew⟩ :: ccdAux p dNew rest

/-- Embedding of `compute_cumulative_distance(points)`: the first point gets
`d_along = 0`, each later point gets the previous `d_along` plus the
Euclidean distance from the previous point. -/
noncomputable def compute_cumulative_distance :
    List MeasuredPoint → List ParameterizedPoint
  | [] => []
  | p :: rest => ⟨p.x, p.y, p.value, 0⟩ :: ccdAux p 0 rest

/-- C1: the Train/Predict Splitter does not partition.  Because the
`if s["measured"] == 1` block sits outside the `for` loop in the source, only
the LAST station's row is ever appended: on a two-station input (one
measured, one not) the outputs are `([], [last row])`, of combined length 1,
so `len(train) + len(predict) ≠ len(input)` and station 0 appears in neither
output. -/
theorem split_train_predict_drops_stations :
    split_train_predict [⟨0, 0, 0, 0, 1, some 5⟩, ⟨1, 5, 0, 10, 0, none⟩] =
      some ([], [⟨1, 5, 0, 10, none⟩]) ∧
    ([] : List SplitRow).length + [(⟨1, 5, 0, 10, none⟩ : SplitRow)].length ≠
      [(⟨0, 0, 0, 0, 1, some 5⟩ : CanonStation), ⟨1, 5, 0, 10, 0, none⟩].length := by
  decide

/-- C4: on a single-point parameterized input (its `d_along` is `0`), the
Station Generator does not return one trivial station: the first loop
iteration reads `points_with_distance[1]`, which is out of range (Python
`IndexError`), because the cursor bound `i < len(points) - 2` never guards
the read of `points[i + 1]` itself. -/
theorem generate_target_stations_single_point_index_error :
    generate_target_stations [⟨5, 7, 2, 0⟩] 1 5 = .indexError := by
  norm_num [generate_target_stations, gtsLoop, advanceCursor, advanceAux, interpolate_point]

/-- Helper: with two points at `d_along` 0 and 1 and non-positive spacing,
the outer loop never leaves the region `current_d ≤ total_length`, so no
fuel bound suffices. -/
theorem gtsLoop_zero_spacing_diverges :
    ∀ (fuel : ℕ) (cd : ℚ) (acc : List Target), cd ≤ 1 →
      gtsLoop [⟨0, 0, 0, 0⟩, ⟨1, 0, 0, 1⟩] 0 1 fuel cd 0 acc = .outOfFuel := by
  intro fuel
  induction fuel with
  | zero => intro cd acc h; rfl
  | succ f ih =>
    intro cd acc h
    rw [gtsLoop, if_pos h]
    exact ih (cd + 0) _ (by linarith)

/-- C5: with `spacing = 0` (a non-positive spacing) and the non-empty
parameterized input `[(0,0,d=0), (1,0,d=1)]`, the Station Generator does not
reject the call: `current_d` never advances past `total_length`, so the loop
never terminates — modelled by the loop exhausting every fuel bound. -/
theorem generate_target_stations_nonpos_spacing_diverges :
    ∀ fuel : ℕ,
      generate_target_stations [⟨0, 0, 0, 0⟩, ⟨1, 0, 0, 1⟩] 0 fuel = .outOfFuel := by
  intro fuel
  exact gtsLoop_zero_spacing_diverges fuel 0 [] (by norm_num)

/-- C7 counterexample: a bracketing segment of length `1/2000 < 1e-3` (the
matching tolerance) does NOT make `interpolate_point` return the earlier
point's coordinates: the source only guards exact equality `d2 == d1`, so it
divides by the near-zero length `1/2000` and returns `(1, 0) ≠ (0, 0)`. -/
theorem interpolate_point_divides_below_tolerance :
    interpolate_point ⟨0, 0, 0, 0⟩ ⟨1, 0, 0, 1/2000⟩ (1/2000) = (1, 0) ∧
    (⟨1, 0, 0, 1/2000⟩ : ParamPoint).d_along - (⟨0, 0, 0, 0⟩ : ParamPoint).d_along
      < TOLERANCE ∧
    ((1 : ℚ), (0 : ℚ)) ≠ ((⟨0, 0, 0, 0⟩ : ParamPoint).x, (⟨0, 0, 0, 0⟩ : ParamPoint).y) := by
  refine ⟨by norm_num [interpolate_point], by norm_num [TOLERANCE], by norm_num⟩

/-- C7 amended: the fallback to the earlier point's coordinates happens
exactly when the bracketing segment has zero length (`d2 == d1`), and only
then is the division skipped. -/
theorem interpolate_point_zero_segment (p1 p2 : ParamPoint) (target_d : ℚ)
    (h : p2.d_along = p1.d_along) :
    interpolate_point p1 p2 target_d = (p1.x, p1.y) := by
  simp [interpolate_point, h]

/-- Witness for `interpolate_point_zero_segment` at a concrete zero-length
segment. -/
theorem interpolate_point_zero_segment_witness :
    (⟨3, 4, 0, 2⟩ : ParamPoint).d_along = (⟨0, 0, 0, 2⟩ : ParamPoint).d_along ∧
    interpolate_point ⟨0, 0, 0, 2⟩ ⟨3, 4, 0, 2⟩ 7 = (0, 0) :=
  ⟨rfl, interpolate_point_zero_segment ⟨0, 0, 0, 2⟩ ⟨3, 4, 0, 2⟩ 7 rfl⟩

/-- C6 counterexample: when `error.json` and `final.csv` both exist, the
resolver returns `failed`, not `complete` — the `error.json` check precedes
the `final.csv` check in `job_status.py`. -/
theorem job_status_error_overrides_final :
    job_status ⟨true, true, true, false, false, false, false, false⟩ = "failed" ∧
    "failed" ≠ "complete" :=
  ⟨rfl, by decide⟩

/-- C6 amended: whenever the job directory exists, `error.json` is absent and
`final.csv` exists, the status is `complete` regardless of every other
artifact's presence. -/
theorem job_status_complete_of_final (st : JobState) (hdir : st.dirExists = true)
    (herr : st.errorJson = false) (hfin : st.finalCsv = true) :
    job_status st = "complete" := by
  simp [job_status, hdir, herr, hfin]

/-- Witness for `job_status_complete_of_final` with every other artifact
present. -/
theorem job_status_complete_of_final_witness :
    (⟨true, false, true, true, true, true, true, true⟩ : JobState).dirExists = true ∧
    (⟨true, false, true, true, true, true, true, true⟩ : JobState).errorJson = false ∧
    (⟨true, false, true, true, true, true, true, true⟩ : JobState).finalCsv = true ∧
    job_status ⟨true, false, true, true, true, true, true, true⟩ = "complete" :=
  ⟨rfl, rfl, rfl, job_status_complete_of_final ⟨true, false, true, true, true, true, true, true⟩ rfl rfl rfl⟩

/-- C3: whenever the number of loaded predictions differs from the number of
to-predict rows, `merge_job_results` raises the fatal row-count-mismatch
error before the merged output is built or written: no `final.csv` content is
produced. -/
theorem merge_job_results_mismatch_error (train : List TrainRow)
    (predict_rows : List PredictRow) (predictions : List ℚ)
    (h : predict_rows.length ≠ predictions.length) :
    merge_job_results train predict_rows predictions =
      .error "predict.csv and predictions.csv row count mismatch" := by
  unfold merge_job_results
  rw [if_pos h]

/-- Witness for `merge_job_results_mismatch_error`: 3 to-predict rows but
only 2 predictions. -/
theorem merge_job_results_mismatch_error_witness :
    ([⟨0, 0, 0⟩, ⟨1, 0, 1⟩, ⟨2, 0, 2⟩] : List PredictRow).length ≠
      ([5, 6] : List ℚ).length ∧
    merge_job_results [] [⟨0, 0, 0⟩, ⟨1, 0, 1⟩, ⟨2, 0, 2⟩] [5, 6] =
      .error "predict.csv and predictions.csv row count mismatch" :=
  ⟨by decide, merge_job_results_mismatch_error [] _ _ (by decide)⟩

/-- Helper: `classifyGo` preserves the station count. -/
theorem classifyGo_length (m : List ParamPoint) (st : List Target) :
    ∀ idx, (classifyGo m idx st).length = st.length := by
  induction st with
  | nil => intro idx; rfl
  | cons s rest ih =>
    intro idx
    rw [classifyGo]
    split <;> simp [ih]

/-- Helper: the `i`-th record of `classifyGo m idx st` carries
`station_index = idx + i` and the `i`-th input station's coordinates. -/
theorem classifyGo_getD (m : List ParamPoint) (st : List Target) :
    ∀ idx i, i < st.length →
      ((classifyGo m idx st).getD i default).station_index = idx + i ∧
      ((classifyGo m idx st).getD i default).x = (st.getD i default).x ∧
      ((classifyGo m idx st).getD i default).y = (st.getD i default).y ∧
      ((classifyGo m idx st).getD i default).d_along = (st.getD i default).d_along := by
  induction st with
  | nil => intro idx i h; simp at h
  | cons s rest ih =>
    intro idx i h
    rw [classifyGo]
    cases i with
    | zero => split <;> simp
    | succ n =>
      have hn : n < rest.length := by simpa using h
      have ihn := ih (idx + 1) n hn
      split <;>
        exact ⟨by simp only [List.getD_cons_succ]; rw [ihn.1]; omega,
               by simp only [List.getD_cons_succ]; exact ihn.2.1,
               by simp only [List.getD_cons_succ]; exact ihn.2.2.1,
               by simp only [List.getD_cons_succ]; exact ihn.2.2.2⟩

/-- C10: the Station Classifier is a frame-preserving annotation: its output
has the same length as the station list, and the `i`-th record has
`station_index = i` and the `i`-th input station's `x`, `y`, `d_along`
unchanged (only `measured` and `value` are computed by classification). -/
theorem classify_stations_frame (stations : List Target) (measured_points : List ParamPoint) :
    (classify_stations stations measured_points).length = stations.length ∧
    ∀ i, i < stations.length →
      ((classify_stations stations measured_points).getD i default).station_index = i ∧
      ((classify_stations stations measured_points).getD i default).x =
        (stations.getD i default).x ∧
      ((classify_stations stations measured_points).getD i default).y =
        (stations.getD i default).y ∧
      ((classify_stations stations measured_points).getD i default).d_along =
        (stations.getD i default).d_along := by
  refine ⟨classifyGo_length _ _ 0, ?_⟩
  intro i hi
  have h := classifyGo_getD measured_points stations 0 i hi
  simpa using h

/-- Witness for `classify_stations_frame` on a concrete two-station input. -/
theorem classify_stations_frame_witness :
    1 < [(⟨0, 0, 0⟩ : Target), ⟨5, 0, 5⟩].length ∧
    ((classify_stations [⟨0, 0, 0⟩, ⟨5, 0, 5⟩] [⟨0, 0, 10, 0⟩]).getD 1 default).station_index
      = 1 ∧
    ((classify_stations [⟨0, 0, 0⟩, ⟨5, 0, 5⟩] [⟨0, 0, 10, 0⟩]).getD 1 default).x = 5 ∧
    ((classify_stations [⟨0, 0, 0⟩, ⟨5, 0, 5⟩] [⟨0, 0, 10, 0⟩]).getD 1 default).y = 0 ∧
    ((classify_stations [⟨0, 0, 0⟩, ⟨5, 0, 5⟩] [⟨0, 0, 10, 0⟩]).getD 1 default).d_along = 5 := by
  have h := (classify_stations_frame [⟨0, 0, 0⟩, ⟨5, 0, 5⟩] [⟨0, 0, 10, 0⟩]).2 1 (by norm_num)
  exact ⟨by norm_num, h.1, h.2.1, h.2.2.1, h.2.2.2⟩

/-- C9: when the prediction count matches the to-predict row count, the
merger returns the written rows: sorted by `d_along` (non-decreasing), a
permutation of the measured rows (source `"measured"`) followed by the
to-predict rows with their positionally aligned prediction attached (source
`"predicted"`), of total length `len(train) + len(predict)`; the sort is
stable (any key-ordered pair of the pre-sort sequence stays in order). -/
theorem merge_job_results_ok_spec (train : List TrainRow) (predict_rows : List PredictRow)
    (predictions : List ℚ) (h : predict_rows.length = predictions.length) :
    ∃ out, merge_job_results train predict_rows predictions = .ok out ∧
      out.Pairwise (fun a b => a.d_along ≤ b.d_along) ∧
      out.Perm
        (train.map (fun r => ⟨r.x, r.y, r.d_along, r.value, "measured"⟩) ++
          List.zipWith (fun g p => ⟨g.x, g.y, g.d_along, p, "predicted"⟩) predict_rows
            predictions) ∧
      out.length = train.length + predict_rows.length ∧
      ∀ a b : FinalRow,
        [a, b].Sublist
          (train.map (fun r => ⟨r.x, r.y, r.d_along, r.value, "measured"⟩) ++
            List.zipWith (fun g p => ⟨g.x, g.y, g.d_along, p, "predicted"⟩) predict_rows
              predictions) →
        a.d_along ≤ b.d_along → [a, b].Sublist out := by
  have htrans : ∀ a b c : FinalRow,
      decide (a.d_along ≤ b.d_along) → decide (b.d_along ≤ c.d_along) →
        decide (a.d_along ≤ c.d_along) := by
    intro a b c hab hbc
    simp only [decide_eq_true_eq] at *
    exact le_trans hab hbc
  have htotal : ∀ a b : FinalRow,
      decide (a.d_along ≤ b.d_along) || decide (b.d_along ≤ a.d_along) := by
    intro a b
    simpa [Bool.or_eq_true, decide_eq_true_eq] using le_total a.d_along b.d_along
  refine ⟨((train.map (fun r => (⟨r.x, r.y, r.d_along, r.value, "measured"⟩ : FinalRow)) ++
      List.zipWith (fun g p => (⟨g.x, g.y, g.d_along, p, "predicted"⟩ : FinalRow)) predict_rows
        predictions).mergeSort (fun a b => a.d_along ≤ b.d_along)), ?_, ?_, ?_, ?_, ?_⟩
  · unfold merge_job_results
    rw [if_neg (by simp [h])]
  · exact (List.sorted_mergeSort htrans htotal _).imp (fun hab => of_decide_eq_true hab)
  · exact List.mergeSort_perm _ _
  · rw [(List.mergeSort_perm _ _).length_eq]
    simp [List.length_zipWith, h]
  · intro a b hsub hle
    exact List.pair_sublist_mergeSort htrans htotal (decide_eq_true hle) hsub

/-- Witness for `merge_job_results_ok_spec` on one measured row and one
predicted row. -/
theorem merge_job_results_ok_spec_witness :
    ([(⟨5, 0, 5⟩ : PredictRow)].length = ([15] : List ℚ).length) ∧
    ∃ out, merge_job_results [⟨0, 0, 0, 10⟩] [⟨5, 0, 5⟩] [15] = .ok out ∧
      out.length = 2 := by
  refine ⟨rfl, ?_⟩
  obtain ⟨out, h1, _, _, h4, _⟩ :=
    merge_job_results_ok_spec [⟨0, 0, 0, 10⟩] [⟨5, 0, 5⟩] [15] rfl
  exact ⟨out, h1, by simpa using h4⟩

/-- Helper: `euclid` is non-negative. -/
theorem euclid_nonneg (prev p : MeasuredPoint) : 0 ≤ euclid prev p :=
  Real.sqrt_nonneg _

/-- Helper: the `d_along` values emitted by `ccdAux`, prefixed with the
accumulated distance `d`, form a non-decreasing chain. -/
theorem ccdAux_chain (l : List MeasuredPoint) :
    ∀ (prev : MeasuredPoint) (d : ℝ),
      List.Chain' (· ≤ ·) (d :: (ccdAux prev d l).map ParameterizedPoint.d_along) := by
  induction l with
  | nil => intro prev d; simp [ccdAux]
  | cons p rest ih =>
    intro prev d
    rw [ccdAux]
    rw [List.map_cons, List.chain'_cons]
    constructor
    · have := euclid_nonneg prev p
      show d ≤ d + euclid prev p
      linarith
    · exact ih p (d + euclid prev p)

/-- Helper: consecutive `d_along` values produced by `ccdAux` differ by the
Euclidean distance between the corresponding input points. -/
theorem ccdAux_step (l : List MeasuredPoint) :
    ∀ (prev : MeasuredPoint) (d : ℝ) (i : ℕ), i + 1 < l.length →
      ((ccdAux prev d l).getD (i + 1) default).d_along =
        ((ccdAux prev d l).getD i default).d_along +
          euclid (l.getD i default) (l.getD (i + 1) default) := by
  induction l with
  | nil => intro prev d i h; simp at h
  | cons p rest ih =>
    intro prev d i h
    rw [ccdAux]
    cases i with
    | zero =>
      have hrest : 0 < rest.length := by simpa using h
      cases rest with
      | nil => simp at hrest
      | cons q rest2 =>
        rw [ccdAux]
        simp
    | succ n =>
      have hn : n + 1 < rest.length := by simpa using h
      simpa using ih p (d + euclid prev p) n hn

/-- C8: the Distance Parameterizer maps the empty list to the empty list, and
for every non-empty input: the first output's `d_along` is `0`, the output
`d_along` sequence is non-decreasing, and each later `d_along` equals the
previous one plus the Euclidean distance between the corresponding
consecutive input points. -/
theorem compute_cumulative_distance_spec (pts : List MeasuredPoint) :
    compute_cumulative_distance ([] : List MeasuredPoint) = [] ∧
    (pts ≠ [] → ((compute_cumulative_distance pts).getD 0 default).d_along = 0) ∧
    List.Chain' (· ≤ ·)
      ((compute_cumulative_distance pts).map ParameterizedPoint.d_along) ∧
    ∀ i, i + 1 < pts.length →
      ((compute_cumulative_distance pts).getD (i + 1) default).d_along =
        ((compute_cumulative_distance pts).getD i default).d_along +
          euclid (pts.getD i default) (pts.getD (i + 1) default) := by
  refine ⟨rfl, ?_, ?_, ?_⟩
  · intro hne
    cases pts with
    | nil => exact absurd rfl hne
    | cons p rest => rfl
  · cases pts with
    | nil => simp [compute_cumulative_distance]
    | cons p rest =>
      rw [compute_cumulative_distance]
      simpa using ccdAux_chain rest p 0
  · intro i h
    cases pts with
    | nil => simp at h
    | cons p rest =>
      rw [compute_cumulative_distance]
      cases i with
      | zero =>
        have hrest : 0 < rest.length := by simpa using h
        cases rest with
        | nil => simp at hrest
        | cons q rest2 =>
          rw [ccdAux]
          simp
      | succ n =>
        have hn : n + 1 < rest.length := by simpa using h
        simpa using ccdAux_step rest p 0 n hn

/-- Witness for `compute_cumulative_distance_spec`: the head clause on a
one-point list and the step clause on a two-point list. -/
theorem compute_cumulative_distance_spec_witness :
    (([⟨0, 0, 5⟩] : List MeasuredPoint) ≠ [] ∧
      ((compute_cumulative_distance [⟨0, 0, 5⟩]).getD 0 default).d_along = 0) ∧
    (0 + 1 < ([⟨0, 0, 5⟩, ⟨3, 4, 6⟩] : List MeasuredPoint).length ∧
      ((compute_cumulative_distance [⟨0, 0, 5⟩, ⟨3, 4, 6⟩]).getD 1 default).d_along =
        ((compute_cumulative_distance [⟨0, 0, 5⟩, ⟨3, 4, 6⟩]).getD 0 default).d_along +
          euclid (([⟨0, 0, 5⟩, ⟨3, 4, 6⟩] : List MeasuredPoint).getD 0 default)
            (([⟨0, 0, 5⟩, ⟨3, 4, 6⟩] : List MeasuredPoint).getD 1 default)) :=
  ⟨⟨by simp, (compute_cumulative_distance_spec [⟨0, 0, 5⟩]).2.1 (by simp)⟩,
   ⟨by norm_num, (compute_cumulative_distance_spec [⟨0, 0, 5⟩, ⟨3, 4, 6⟩]).2.2.2 0 (by norm_num)⟩⟩

/-- Helper: the cursor advances at most `k` positions. -/
theorem advanceAux_le (pts : List ParamPoint) (cd : ℚ) :
    ∀ k i, advanceAux pts cd k i ≤ i + k := by
  intro k
  induction k with
  | zero => intro i; simp [advanceAux]
  | succ k ih =>
    intro i
    rw [advanceAux]
    split
    · have := ih (i + 1)
      omega
    · omega

/-- Helper: from a cursor within bounds, the advanced cursor stays within
`len - 2`. -/
theorem advanceCursor_le (pts : List ParamPoint) (cd : ℚ) (i : ℕ)
    (h : i ≤ pts.length - 2) : advanceCursor pts cd i ≤ pts.length - 2 := by
  have := advanceAux_le pts cd (pts.length - 2 - i) i
  unfold advanceCursor
  omega

/-- Helper: the inner loop stops either by exhausting its budget or because
the next point's `d_along` is no longer below `current_d`. -/
theorem advanceAux_post (pts : List ParamPoint) (cd : ℚ) :
    ∀ k i, advanceAux pts cd k i = i + k ∨
      ¬ (pts.getD (advanceAux pts cd k i + 1) default).d_along < cd := by
  intro k
  induction k with
  | zero => intro i; left; simp [advanceAux]
  | succ k ih =>
    intro i
    rw [advanceAux]
    split
    · rcases ih (i + 1) with h | h
      · left
        rw [h]
        omega
      · right
        exact h
    · rename_i h
      right
      exact h

/-- Helper: from a cursor within bounds, the advanced cursor either reaches
`len - 2` (the segment ending at the last point) or stops at a segment whose
right endpoint has `d_along ≥ current_d`. -/
theorem advanceCursor_post (pts : List ParamPoint) (cd : ℚ) (i : ℕ)
    (hi : i ≤ pts.length - 2) :
    advanceCursor pts cd i = pts.length - 2 ∨
      cd ≤ (pts.getD (advanceCursor pts cd i + 1) default).d_along := by
  unfold advanceCursor
  rcases advanceAux_post pts cd (pts.length - 2 - i) i with h | h
  · left
    rw [h]
    omega
  · right
    exact not_lt.mp h

/-- Helper: with non-decreasing `d_along` and zero-length segments joining
coincident points (both guaranteed by the Distance Parameterizer), every
point whose `d_along` equals the last point's carries the last point's
coordinates. -/
theorem suffix_coords (pts : List ParamPoint)
    (hmono : ∀ j, j < pts.length → ∀ i, i ≤ j →
      (pts.getD i default).d_along ≤ (pts.getD j default).d_along)
    (hseg : ∀ m, m + 1 < pts.length →
      (pts.getD m default).d_along = (pts.getD (m + 1) default).d_along →
      (pts.getD m default).x = (pts.getD (m + 1) default).x ∧
        (pts.getD m default).y = (pts.getD (m + 1) default).y) :
    ∀ n m, m + n = pts.length - 1 → m < pts.length →
      (pts.getD m default).d_along = (pts.getD (pts.length - 1) default).d_along →
      (pts.getD m default).x = (pts.getD (pts.length - 1) default).x ∧
        (pts.getD m default).y = (pts.getD (pts.length - 1) default).y := by
  intro n
  induction n with
  | zero =>
    intro m hm _ _
    have hmeq : m = pts.length - 1 := by omega
    rw [hmeq]
    exact ⟨rfl, rfl⟩
  | succ n ih =>
    intro m hm hlt hd
    have hm1 : m + 1 < pts.length := by omega
    have hd1 : (pts.getD (m + 1) default).d_along =
        (pts.getD (pts.length - 1) default).d_along := by
      refine le_antisymm (hmono (pts.length - 1) (by omega) (m + 1) (by omega)) ?_
      rw [← hd]
      exact hmono (m + 1) hm1 m (by omega)
    have hc := hseg m hm1 (by rw [hd, hd1])
    have hrest := ih (m + 1) (by omega) hm1 hd1
    exact ⟨hc.1.trans hrest.1, hc.2.trans hrest.2⟩

/-- Helper: interpolating at the right endpoint of a segment of nonzero
length returns the right endpoint's coordinates exactly. -/
theorem interpolate_point_at_d2 (p1 p2 : ParamPoint) (target_d : ℚ)
    (h : p1.d_along ≠ p2.d_along) (htd : target_d = p2.d_along) :
    interpolate_point p1 p2 target_d = (p2.x, p2.y) := by
  have hne : p2.d_along - p1.d_along ≠ 0 := sub_ne_zero.mpr (Ne.symm h)
  simp only [interpolate_point, if_neg (Ne.symm h), htd, div_self hne]
  exact Prod.ext (by ring) (by ring)

/-- Helper: one unfolding of the loop when the bound check passes and both
segment endpoints are in range. -/
theorem gtsLoop_step (pts : List ParamPoint) (s total : ℚ) (fuel : ℕ) (cd : ℚ)
    (i : ℕ) (acc : List Target) (p1 p2 : ParamPoint) (hcd : cd ≤ total)
    (h1 : pts.get? (advanceCursor pts cd i) = some p1)
    (h2 : pts.get? (advanceCursor pts cd i + 1) = some p2) :
    gtsLoop pts s total (fuel + 1) cd i acc =
      gtsLoop pts s total fuel (cd + s) (advanceCursor pts cd i)
        (acc ++ [⟨(interpolate_point p1 p2 cd).1, (interpolate_point p1 p2 cd).2, cd⟩]) := by
  rw [gtsLoop, if_pos hcd]
  simp only [h1, h2]

/-- Helper: one unfolding of the loop when `current_d` has passed
`total_length`. -/
theorem gtsLoop_stop (pts : List ParamPoint) (s total : ℚ) (fuel : ℕ) (cd : ℚ)
    (i : ℕ) (acc : List Target) (h : ¬ cd ≤ total) :
    gtsLoop pts s total (fuel + 1) cd i acc = .ok acc := by
  rw [gtsLoop, if_neg h]

/-- Helper: an in-range `get?` returns the `getD` value. -/
theorem get?_eq_some_getD (l : List ParamPoint) (n : ℕ) (h : n < l.length) :
    l.get? n = some (l.getD n default) := by
  rw [List.get?_eq_getElem?, List.getElem?_eq_getElem h, List.getD_eq_getElem l default h]

/-- Helper: consing onto a list with a known last element keeps it. -/
theorem getLast?_cons_of_getLast? (t : Target) (ts : List Target) (v : Target)
    (h : ts.getLast? = some v) : (t :: ts).getLast? = some v := by
  rw [show t :: ts = [t] ++ ts from rfl, List.getLast?_append, h]
  rfl

/-- Helper: the main loop invariant.  With non-decreasing `d_along`,
zero-length segments joining coincident points, total arclength `k * s`,
cursor within bounds and enough fuel, the loop run started at
`current_d = j * s` returns normally and its appended targets end with the
last point's exact coordinates at `d_along = k * s`. -/
theorem gtsLoop_run (pts : List ParamPoint) (s : ℚ) (k : ℕ) (hs : 0 < s)
    (hlen : 2 ≤ pts.length)
    (hmono : ∀ j, j < pts.length → ∀ i, i ≤ j →
      (pts.getD i default).d_along ≤ (pts.getD j default).d_along)
    (hseg : ∀ m, m + 1 < pts.length →
      (pts.getD m default).d_along = (pts.getD (m + 1) default).d_along →
      (pts.getD m default).x = (pts.getD (m + 1) default).x ∧
        (pts.getD m default).y = (pts.getD (m + 1) default).y)
    (htot : (pts.getD (pts.length - 1) default).d_along = (k : ℚ) * s) :
    ∀ n j i acc fuel, j + n = k → i ≤ pts.length - 2 → n + 2 ≤ fuel →
      ∃ ts, gtsLoop pts s ((k : ℚ) * s) fuel ((j : ℚ) * s) i acc = .ok (acc ++ ts) ∧
        ts.getLast? = some ⟨(pts.getD (pts.length - 1) default).x,
          (pts.getD (pts.length - 1) default).y, (k : ℚ) * s⟩ := by
  intro n
  induction n with
  | zero =>
    intro j i acc fuel hj hi hfuel
    have hjk : j = k := by omega
    subst hjk
    obtain ⟨f1, rfl⟩ : ∃ f1, fuel = f1 + 1 := ⟨fuel - 1, by omega⟩
    obtain ⟨f2, rfl⟩ : ∃ f2, f1 = f2 + 1 := ⟨f1 - 1, by omega⟩
    have hj'le : advanceCursor pts ((j : ℚ) * s) i ≤ pts.length - 2 :=
      advanceCursor_le pts _ i hi
    have h1 : pts.get? (advanceCursor pts ((j : ℚ) * s) i) =
        some (pts.getD (advanceCursor pts ((j : ℚ) * s) i) default) :=
      get?_eq_some_getD pts _ (by omega)
    have h2 : pts.get? (advanceCursor pts ((j : ℚ) * s) i + 1) =
        some (pts.getD (advanceCursor pts ((j : ℚ) * s) i + 1) default) :=
      get?_eq_some_getD pts _ (by omega)
    have hp2d : (pts.getD (advanceCursor pts ((j : ℚ) * s) i + 1) default).d_along =
        (j : ℚ) * s := by
      rcases advanceCursor_post pts ((j : ℚ) * s) i hi with hcur | hge
      · have he : advanceCursor pts ((j : ℚ) * s) i + 1 = pts.length - 1 := by omega
        rw [he]
        exact htot
      · refine le_antisymm ?_ hge
        have hle := hmono (pts.length - 1) (by omega)
          (advanceCursor pts ((j : ℚ) * s) i + 1) (by omega)
        rw [htot] at hle
        exact hle
    have hp2c := suffix_coords pts hmono hseg
      (pts.length - 1 - (advanceCursor pts ((j : ℚ) * s) i + 1))
      (advanceCursor pts ((j : ℚ) * s) i + 1) (by omega) (by omega)
      (by rw [hp2d]; exact htot.symm)
    rw [gtsLoop_step pts s _ (f2 + 1) _ i acc _ _ (le_refl _) h1 h2]
    have hint : interpolate_point (pts.getD (advanceCursor pts ((j : ℚ) * s) i) default)
        (pts.getD (advanceCursor pts ((j : ℚ) * s) i + 1) default) ((j : ℚ) * s) =
        ((pts.getD (pts.length - 1) default).x, (pts.getD (pts.length - 1) default).y) := by
      by_cases hc : (pts.getD (advanceCursor pts ((j : ℚ) * s) i + 1) default).d_along =
          (pts.getD (advanceCursor pts ((j : ℚ) * s) i) default).d_along
      · have hp1d : (pts.getD (advanceCursor pts ((j : ℚ) * s) i) default).d_along =
            (j : ℚ) * s := by
          rw [← hc]
          exact hp2d
        have hp1c := suffix_coords pts hmono hseg
          (pts.length - 1 - advanceCursor pts ((j : ℚ) * s) i)
          (advanceCursor pts ((j : ℚ) * s) i) (by omega) (by omega)
          (by rw [hp1d]; exact htot.symm)
        simp only [interpolate_point, if_pos hc]
        exact Prod.ext hp1c.1 hp1c.2
      · have hne : (pts.getD (advanceCursor pts ((j : ℚ) * s) i) default).d_along ≠
            (pts.getD (advanceCursor pts ((j : ℚ) * s) i + 1) default).d_along :=
          fun hh => hc hh.symm
        rw [interpolate_point_at_d2 _ _ _ hne hp2d.symm]
        exact Prod.ext hp2c.1 hp2c.2
    rw [hint]
    rw [gtsLoop_stop pts s _ f2 _ _ _ (by nlinarith)]
    exact ⟨[⟨(pts.getD (pts.length - 1) default).x,
      (pts.getD (pts.length - 1) default).y, (j : ℚ) * s⟩], rfl, rfl⟩
  | succ n ih =>
    intro j i acc fuel hj hi hfuel
    obtain ⟨f1, rfl⟩ : ∃ f1, fuel = f1 + 1 := ⟨fuel - 1, by omega⟩
    have hjk : (j : ℚ) ≤ (k : ℚ) := by exact_mod_cast (by omega : j ≤ k)
    have hcdle : (j : ℚ) * s ≤ (k : ℚ) * s :=
      mul_le_mul_of_nonneg_right hjk (le_of_lt hs)
    have hj'le : advanceCursor pts ((j : ℚ) * s) i ≤ pts.length - 2 :=
      advanceCursor_le pts _ i hi
    have h1 : pts.get? (advanceCursor pts ((j : ℚ) * s) i) =
        some (pts.getD (advanceCursor pts ((j : ℚ) * s) i) default) :=
      get?_eq_some_getD pts _ (by omega)
    have h2 : pts.get? (advanceCursor pts ((j : ℚ) * s) i + 1) =
        some (pts.getD (advanceCursor pts ((j : ℚ) * s) i + 1) default) :=
      get?_eq_some_getD pts _ (by omega)
    rw [gtsLoop_step pts s _ f1 _ i acc _ _ hcdle h1 h2]
    have hstep : (j : ℚ) * s + s = ((j + 1 : ℕ) : ℚ) * s := by push_cast; ring
    rw [hstep]
    obtain ⟨ts, hrun, hlast⟩ := ih (j + 1) (advanceCursor pts ((j : ℚ) * s) i)
      (acc ++ [⟨(interpolate_point (pts.getD (advanceCursor pts ((j : ℚ) * s) i) default)
        (pts.getD (advanceCursor pts ((j : ℚ) * s) i + 1) default) ((j : ℚ) * s)).1,
        (interpolate_point (pts.getD (advanceCursor pts ((j : ℚ) * s) i) default)
        (pts.getD (advanceCursor pts ((j : ℚ) * s) i + 1) default) ((j : ℚ) * s)).2,
        (j : ℚ) * s⟩]) f1 (by omega) hj'le (by omega)
    refine ⟨(⟨(interpolate_point (pts.getD (advanceCursor pts ((j : ℚ) * s) i) default)
        (pts.getD (advanceCursor pts ((j : ℚ) * s) i + 1) default) ((j : ℚ) * s)).1,
        (interpolate_point (pts.getD (advanceCursor pts ((j : ℚ) * s) i) default)
        (pts.getD (advanceCursor pts ((j : ℚ) * s) i + 1) default) ((j : ℚ) * s)).2,
        (j : ℚ) * s⟩ : Target) :: ts, ?_, ?_⟩
    · rw [hrun]
      simp
    · exact getLast?_cons_of_getLast? _ ts _ hlast

/-- C2 counterexample: with points at `d_along` 0 and 1 and positive spacing
`7/10` (which does not divide the total arclength 1), the generator's output
is `[(0,0,0), (0.7,0,0.7)]`: its final target is `(0.7, 0, 0.7)`, not the
last parameterized point's `(1, 0, 1)` — no final target is appended. -/
theorem generate_target_stations_skips_final_point :
    generate_target_stations [⟨0, 0, 0, 0⟩, ⟨1, 0, 0, 1⟩] (7/10) 5 =
      .ok [⟨0, 0, 0⟩, ⟨7/10, 0, 7/10⟩] ∧
    [(⟨0, 0, 0⟩ : Target), ⟨7/10, 0, 7/10⟩].getLast? = some ⟨7/10, 0, 7/10⟩ ∧
    (⟨7/10, 0, 7/10⟩ : Target) ≠ ⟨1, 0, 1⟩ := by
  refine ⟨?_, rfl, ?_⟩
  · norm_num [generate_target_stations, gtsLoop, advanceCursor, advanceAux, interpolate_point]
  · intro h
    rw [Target.mk.injEq] at h
    norm_num at h

/-- C2 amended: for every parameterized sequence of at least two points —
`d_along` non-decreasing and zero-length segments joining coincident points,
both guaranteed by the Distance Parameterizer — and every positive spacing
that divides the total arclength evenly (`total = k * spacing`), a
sufficiently fuelled run terminates normally and the output DOES end with a
final target carrying the last parameterized point's exact
`(x, y, d_along)`. -/
theorem generate_target_stations_final_target_of_dvd (pts : List ParamPoint)
    (s : ℚ) (k : ℕ) (hs : 0 < s) (hlen : 2 ≤ pts.length)
    (hmono : ∀ j, j < pts.length → ∀ i, i ≤ j →
      (pts.getD i default).d_along ≤ (pts.getD j default).d_along)
    (hseg : ∀ m, m + 1 < pts.length →
      (pts.getD m default).d_along = (pts.getD (m + 1) default).d_along →
      (pts.getD m default).x = (pts.getD (m + 1) default).x ∧
        (pts.getD m default).y = (pts.getD (m + 1) default).y)
    (htot : (pts.getD (pts.length - 1) default).d_along = (k : ℚ) * s)
    (fuel : ℕ) (hfuel : k + 2 ≤ fuel) :
    ∃ ts, generate_target_stations pts s fuel = .ok ts ∧
      ts.getLast? = some ⟨(pts.getD (pts.length - 1) default).x,
        (pts.getD (pts.length - 1) default).y,
        (pts.getD (pts.length - 1) default).d_along⟩ := by
  have hlast : pts.getLast? = some (pts.getD (pts.length - 1) default) := by
    rw [List.getLast?_eq_getElem?, List.getElem?_eq_getElem (by omega),
      List.getD_eq_getElem pts default (by omega)]
  have hgen : generate_target_stations pts s fuel =
      gtsLoop pts s (pts.getD (pts.length - 1) default).d_along fuel 0 0 [] := by
    unfold generate_target_stations
    rw [hlast]
  obtain ⟨ts, hrun, hl⟩ := gtsLoop_run pts s k hs hlen hmono hseg htot k 0 0 [] fuel
    (by omega) (by omega) (by omega)
  have hzero : ((0 : ℕ) : ℚ) * s = 0 := by push_cast; ring
  rw [hzero] at hrun
  refine ⟨ts, ?_, ?_⟩
  · rw [hgen, htot, hrun]
    simp
  · rw [htot]
    exact hl

/-- Witness for `generate_target_stations_final_target_of_dvd`: a genuine
non-decreasing parameterization with a duplicated (zero-length-segment) last
point — `d_along` 0, 1, 1 — spacing `1/2`, `k = 2`, fuel 4. -/
theorem generate_target_stations_final_target_of_dvd_witness :
    (0 : ℚ) < 1/2 ∧
    2 ≤ ([⟨0, 0, 0, 0⟩, ⟨1, 0, 0, 1⟩, ⟨1, 0, 0, 1⟩] : List ParamPoint).length ∧
    (([⟨0, 0, 0, 0⟩, ⟨1, 0, 0, 1⟩, ⟨1, 0, 0, 1⟩] : List ParamPoint).getD
      (([⟨0, 0, 0, 0⟩, ⟨1, 0, 0, 1⟩, ⟨1, 0, 0, 1⟩] : List ParamPoint).length - 1)
        default).d_along = ((2 : ℕ) : ℚ) * (1/2) ∧
    ∃ ts, generate_target_stations [⟨0, 0, 0, 0⟩, ⟨1, 0, 0, 1⟩, ⟨1, 0, 0, 1⟩] (1/2) 4 =
        .ok ts ∧
      ts.getLast? = some ⟨1, 0, 1⟩ := by
  refine ⟨by norm_num, by norm_num, by norm_num, ?_⟩
  obtain ⟨ts, h1, h2⟩ := generate_target_stations_final_target_of_dvd
    [⟨0, 0, 0, 0⟩, ⟨1, 0, 0, 1⟩, ⟨1, 0, 0, 1⟩] (1/2) 2 (by norm_num) (by norm_num)
    (by decide)
    (by
      intro m hm hd
      have hm2 : m < 2 := by
        simp at hm
        omega
      interval_cases m
      · simp at hd
      · exact ⟨rfl, rfl⟩)
    (by norm_num) 4 (by norm_num)
  exact ⟨ts, h1, h2⟩
